import Mathlib

/-!
# AliceVision: depth reconstruction, SGM parameters and the F-matrix filter

A shallow embedding of

* `src/aliceVision/depthMap/SemiGlobalMatchingParams.cpp`
  (the constructor, the file-name getters and `getDepthSimMapFromBestIdVal`);
* `src/openMVG/matching_image_collection/F_ACRobust.hpp`
  (`GeometricFilter_FMatrix` and its `geometricEstimation_Mat`).

Conventions of the embedding.

* C++ `int` values are integers (`Int`). The products of lines 148 and 149,
  `x * step` and `pix.x * scale`, are reduced to the 32 bit range by `int32`.
  The index `y * volDimX + x` is not: it is below `w * h`, and an access
  beyond the vector it indexes is a `Fault`. The one narrowing cast of the
  source, `(unsigned char)`, is an explicit `% 256`.
* `float` and `double` are abstract types `F` and `D`: every floating point
  operation the source performs is an operation of a record passed as a
  parameter (`Geometry`, `RobustEnv`), because the headers that define them
  (`Point3d.hpp`, `Matrix3x3.hpp`, `common.hpp`, the robust estimators) are
  not among the sources.
* `StaticVector<T>` is a list; its unchecked `operator[]` returns `none` when
  the index is out of range, and the function that performed the access then
  stops with a `Fault` naming the vector and the index (undefined behaviour in
  C++).
* `#pragma omp parallel for` is modelled by the sequential loop: the
  iterations write pairwise distinct cells.
* Console output (`printfElapsedTime`) and `clock()` are not modelled.
-/

namespace AliceVision

/-! ## Data model -/

/-- `StaticVector<T>` of `mvsData`: a sequence with unchecked indexing. -/
abbrev StaticVector (T : Type) := List T

namespace StaticVector

/-- Modelled from the spec: `StaticVector::size()` (the header `StaticVector.hpp`
is not among the sources) is the number of elements as a signed `int`, so that
`size() - zborder` in the guard of line 152 is signed arithmetic, as the bound
`|hypotheses| - zborder` of the spec reads. -/
def size {T : Type} (v : StaticVector T) : Int := (v.length : Int)

/-- Unchecked `operator[]` used as an rvalue: `none` stands for an access out of range. -/
def read {T : Type} (v : StaticVector T) (i : Int) : Option T :=
  if 0 ≤ i then v[i.toNat]? else none

/-- Unchecked `operator[]` used as an lvalue: `none` stands for an access out of range. -/
def write {T : Type} (v : StaticVector T) (i : Int) (a : T) : Option (StaticVector T) :=
  if 0 ≤ i ∧ i.toNat < v.length then some (v.set i.toNat a) else none

end StaticVector

/-- `Pixel` of `mvsData`: integer image coordinates. -/
structure Pixel where
  x : Int
  y : Int
deriving DecidableEq, Repr

/-- `Point2d` of `mvsData`. -/
structure Point2d (F : Type) where
  x : F
  y : F
deriving DecidableEq, Repr

/-- `Point3d` of `mvsData`. -/
structure Point3d (F : Type) where
  x : F
  y : F
  z : F
deriving DecidableEq, Repr

/-- `IdValue`: the best hypothesis index of a pixel and its aggregated cost. -/
structure IdValue (F : Type) where
  id : Int
  value : F
deriving DecidableEq, Repr

/-- `DepthSim`: one cell of a depth/similarity map. -/
structure DepthSim (F : Type) where
  depth : F
  sim : F
deriving DecidableEq, Repr

/-- `DepthSimMap`: the fields of the map that `getDepthSimMapFromBestIdVal` touches. -/
structure DepthSimMap (F : Type) where
  w : Int
  h : Int
  dsm : StaticVector (DepthSim F)
deriving DecidableEq, Repr

/-- Modelled from the spec: the constructor `DepthSimMap(rc, mp, scale, step)`,
which is not among the sources. The depth/similarity map is a dense array with
one entry per output pixel (spec 3), and pixels that fail the border test "keep
an explicit invalid marker" (spec 4.5, step 5): the fresh map holds the marker
in every cell. The marker `invalid` and the dimensions `w`, `h` that the
constructor derives from the image size are parameters. -/
def DepthSimMap.new {F : Type} (invalid : DepthSim F) (w h : Int) : DepthSimMap F :=
  { w := w, h := h, dsm := List.replicate (w * h).toNat invalid }

/-- The configuration tree `mp->_ini` (a `boost::property_tree::ptree`): per
target type, the value stored under a key when there is one that converts to
that type. A `double` is read as a rational. -/
structure PropertyTree where
  bools : String → Option Bool
  ints : String → Option Int
  doubles : String → Option ℚ
  strings : String → Option String

namespace PropertyTree

/-- The getter `get<bool>(key, default)`: the stored value, or `default` when
the key is absent or its value does not convert. -/
def getBool (t : PropertyTree) (key : String) (default : Bool) : Bool :=
  (t.bools key).getD default

/-- The getter `get<int>(key, default)`. -/
def getInt (t : PropertyTree) (key : String) (default : Int) : Int :=
  (t.ints key).getD default

/-- The getter `get<double>(key, default)`. -/
def getDouble (t : PropertyTree) (key : String) (default : ℚ) : ℚ :=
  (t.doubles key).getD default

/-- The getter `get<std::string>(key, default)`. -/
def getString (t : PropertyTree) (key : String) (default : String) : String :=
  (t.strings key).getD default

end PropertyTree

/-- The part of `mvsUtils::MultiViewParams` that `SemiGlobalMatchingParams`
reads: the configuration `_ini`, the depth-map folder and, per camera `rc`, the
inverse rotation `iRArr[rc]`, the centre `CArr[rc]` and the inverse camera
matrix `iCamArr[rc]`; `M` is the matrix type. -/
structure MultiViewParams (F M : Type) where
  _ini : PropertyTree
  iRArr : Int → M
  CArr : Int → Point3d F
  iCamArr : Int → M
  /-- The result of `getDepthMapFolder()`. -/
  getDepthMapFolder : String

/-- The floating point and vector operations that `getDepthSimMapFromBestIdVal`
calls. Their definitions (`Point3d.hpp`, `Matrix3x3.hpp`, `common.hpp`) are not
among the sources, so they are parameters of the embedding. -/
structure Geometry (F M : Type) where
  /-- The conversion `(float) n` of an `int`, and the literals `0.0f`, `1.0f`. -/
  ofInt : Int → F
  /-- The product `Matrix3x3 * Point3d`. -/
  mulPoint3d : M → Point3d F → Point3d F
  /-- The product `Matrix3x3 * Point2d`. -/
  mulPoint2d : M → Point2d F → Point3d F
  /-- The method `Point3d::normalize()`. -/
  normalize : Point3d F → Point3d F
  /-- The sum `Point3d + Point3d`. -/
  add : Point3d F → Point3d F → Point3d F
  /-- The difference `Point3d - Point3d`. -/
  sub : Point3d F → Point3d F → Point3d F
  /-- The product `Point3d * float`. -/
  scale : Point3d F → F → Point3d F
  /-- The method `Point3d::size()`, the Euclidean length. -/
  size : Point3d F → F
  /-- The helper `linePlaneIntersect(linePoint, lineVect, planePoint, planeNormal)`. -/
  linePlaneIntersect : Point3d F → Point3d F → Point3d F → Point3d F → Point3d F

/-- An unchecked access out of range: the vector and the index. -/
inductive Fault where
  | volumeBestIdVal (i : Int)
  | planesDepths (i : Int)
  | dsm (i : Int)
deriving DecidableEq, Repr

/-! ## `getDepthSimMapFromBestIdVal` -/

/-- The value an `int` holds for the arithmetic result `n`: two's complement
reduction to 32 bits. -/
def int32 (n : Int) : Int := (n + 2147483648) % 4294967296 - 2147483648

/-- The C loop `for (int i = 0; i < n; i++) body`, threading the state `s`. -/
def forLoop {σ ε : Type} (n : Int) (body : Int → σ → Except ε σ) (s : σ) : Except ε σ :=
  (List.range n.toNat).foldlM (fun st (i : Nat) => body (i : Int) st) s

/-- Lines 154 to 159: the depth of the hypothesis plane `fpPlaneDepth` along
the ray of pixel `pixScale1`. -/
def planeDepthAlongRay {F M : Type} (g : Geometry F M) (mp : MultiViewParams F M) (rc : Int)
    (pixScale1 : Pixel) (fpPlaneDepth : F) : F :=
  let planen := g.normalize (g.mulPoint3d (mp.iRArr rc) ⟨g.ofInt 0, g.ofInt 0, g.ofInt 1⟩)
  let planep := g.add (mp.CArr rc) (g.scale planen fpPlaneDepth)
  let v := g.normalize (g.mulPoint2d (mp.iCamArr rc) ⟨g.ofInt pixScale1.x, g.ofInt pixScale1.y⟩)
  let p := g.linePlaneIntersect (mp.CArr rc) v planep planen
  g.size (g.sub (mp.CArr rc) p)

/-- The body of the inner loop (lines 148 to 174) for the cell `(x, y)`. -/
def cellBody {F M : Type} (g : Geometry F M) (mp : MultiViewParams F M)
    (volDimX : Int) (volumeBestIdVal : StaticVector (IdValue F))
    (scale step rc zborder : Int) (planesDepths : StaticVector F)
    (y x : Int) (dsm : StaticVector (DepthSim F)) : Except Fault (StaticVector (DepthSim F)) :=
  let pix : Pixel := ⟨int32 (x * step), int32 (y * step)⟩
  let pixScale1 : Pixel := ⟨int32 (pix.x * scale), int32 (pix.y * scale)⟩
  match StaticVector.read volumeBestIdVal (y * volDimX + x) with
  | none => .error (.volumeBestIdVal (y * volDimX + x))
  | some best =>
    let sim := best.value
    let fpdepthId := best.id
    if fpdepthId ≥ zborder ∧ fpdepthId < StaticVector.size planesDepths - zborder then
      match StaticVector.read planesDepths fpdepthId with
      | none => .error (.planesDepths fpdepthId)
      | some fpPlaneDepth =>
        let depth := planeDepthAlongRay g mp rc pixScale1 fpPlaneDepth
        match StaticVector.write dsm (y * volDimX + x) ⟨depth, sim⟩ with
        | none => .error (.dsm (y * volDimX + x))
        | some dsm1 => .ok dsm1
    else
      -- border cases: the source does nothing here
      .ok dsm

/-- `SemiGlobalMatchingParams::getDepthSimMapFromBestIdVal`. The argument
`fresh` is the map returned by `new DepthSimMap(rc, mp, scale, step)`, whose
constructor is not among the sources. -/
def getDepthSimMapFromBestIdVal {F M : Type} (g : Geometry F M) (mp : MultiViewParams F M)
    (fresh : DepthSimMap F)
    (w h : Int) (volumeBestIdVal : StaticVector (IdValue F))
    (scale step rc zborder : Int) (planesDepths : StaticVector F) :
    Except Fault (DepthSimMap F) :=
  let volDimX := w
  let volDimY := h
  match forLoop volDimY (fun y dsm =>
      forLoop volDimX (fun x dsm1 =>
        cellBody g mp volDimX volumeBestIdVal scale step rc zborder planesDepths y x dsm1) dsm)
      fresh.dsm with
  | .error e => .error e
  | .ok dsm => .ok { fresh with dsm := dsm }

/-- What the loops leave in the cell `(x, y)` of the output vector: `c` is the
content of the cell, `c0` the content before the call. -/
def CellSpec {F M : Type} (g : Geometry F M) (mp : MultiViewParams F M)
    (scale step rc zborder : Int)
    (planes : StaticVector F) (x y : Int) (b : Option (IdValue F))
    (c0 c : Option (DepthSim F)) : Prop :=
  ∃ bv, b = some bv ∧
    ((bv.id ≥ zborder ∧ bv.id < StaticVector.size planes - zborder) →
      ∃ d, StaticVector.read planes bv.id = some d ∧
        c = some ⟨planeDepthAlongRay g mp rc
          ⟨int32 (int32 (x * step) * scale), int32 (int32 (y * step) * scale)⟩ d, bv.value⟩) ∧
    (¬ (bv.id ≥ zborder ∧ bv.id < StaticVector.size planes - zborder) → c = c0)

/-- The loop invariant: the first `k` cells in row-major order are final, the
others are as before the call. -/
def GridInv {F M : Type} (g : Geometry F M) (mp : MultiViewParams F M)
    (W : Nat) (best : StaticVector (IdValue F)) (scale step rc zborder : Int)
    (planes : StaticVector F) (fresh : StaticVector (DepthSim F))
    (k : Nat) (s : StaticVector (DepthSim F)) : Prop :=
  s.length = fresh.length ∧
  (∀ y x : Nat, x < W → y * W + x < k →
    CellSpec g mp scale step rc zborder planes x y best[y * W + x]?
      fresh[y * W + x]? s[y * W + x]?) ∧
  (∀ j : Nat, k ≤ j → s[j]? = fresh[j]?)

/-! ## `SemiGlobalMatchingParams`: the constructor and the file names -/

/-- The structure `rgb` of `mvsData`, the type of `silhouetteMaskColor`. Its
declaration is not among the sources; the components are kept as the integers
assigned to them. -/
structure Rgb where
  r : Int
  g : Int
  b : Int
deriving DecidableEq, Repr

/-- The data members of `SemiGlobalMatchingParams` that the constructor reads
from the configuration. The handles `mp`, `pc`, `cps` and `prt` are pointers
stored as given and are left out. `P1`, `P2` and `P3` are `unsigned char`. The
three `float` members hold the configured `double` as a rational: the rounding
of `(float)` is not modelled. -/
structure SemiGlobalMatchingParams where
  visualizeDepthMaps : Bool
  visualizePartialDepthMaps : Bool
  doSmooth : Bool
  doRefine : Bool
  refineUseTcOrPixSize : Bool
  ndepthsToRefine : Int
  P1 : Int
  P2 : Int
  P3 : Int
  maxDepthsToStore : Int
  maxDepthsToSweep : Int
  rcTcDepthsHalfLimit : Int
  rcDepthsCompStep : Int
  useSeedsToCompDepthsToSweep : Bool
  seedsRangePercentile : ℚ
  seedsRangeInflate : ℚ
  saveDepthsToSweepToTxtForVis : Bool
  doSGMoptimizeVolume : Bool
  doRefineRc : Bool
  modalsMapDistLimit : Int
  minNumOfConsistentCams : Int
  minObjectThickness : Int
  maxTcRcPixSizeInVoxRatio : ℚ
  nSGGCIters : Int
  SGMoutDirName : String
  SGMtmpDirName : String
  useSilhouetteMaskCodedByColor : Bool
  silhouetteMaskColor : Rgb
deriving DecidableEq, Repr

/-- The cast `(unsigned char) n` of an `int`. -/
def toUnsignedChar (n : Int) : Int := n % 256

/-- The constructor `SemiGlobalMatchingParams::SemiGlobalMatchingParams(mp, pc, cps)`.
A C++ constructor either returns the object or throws; the body has no `throw`,
so the result is always `Except.ok`. -/
def SemiGlobalMatchingParams.new {F M : Type} (mp : MultiViewParams F M) :
    Except String SemiGlobalMatchingParams :=
  .ok {
    visualizeDepthMaps := mp._ini.getBool "semiGlobalMatching.visualizeDepthMaps" false
    visualizePartialDepthMaps :=
      mp._ini.getBool "semiGlobalMatching.visualizePartialDepthMaps" false
    doSmooth := mp._ini.getBool "semiGlobalMatching.smooth" true
    doRefine := mp._ini.getBool "semiGlobalMatching.doRefine" true
    refineUseTcOrPixSize := mp._ini.getBool "semiGlobalMatching.refineUseTcOrPixSize" true
    ndepthsToRefine := mp._ini.getInt "semiGlobalMatching.ndepthsToRefine" 15
    P1 := toUnsignedChar (mp._ini.getInt "semiGlobalMatching.P1" 10)
    P2 := toUnsignedChar (mp._ini.getInt "semiGlobalMatching.P2" 125)
    P3 := toUnsignedChar (mp._ini.getInt "semiGlobalMatching.P3" 0)
    maxDepthsToStore := mp._ini.getInt "semiGlobalMatching.maxDepthsToStore" 3000
    maxDepthsToSweep := mp._ini.getInt "semiGlobalMatching.maxDepthsToSweep" 1500
    rcTcDepthsHalfLimit := mp._ini.getInt "semiGlobalMatching.rcTcDepthsHalfLimit" 2048
    rcDepthsCompStep := mp._ini.getInt "semiGlobalMatching.rcDepthsCompStep" 6
    useSeedsToCompDepthsToSweep :=
      mp._ini.getBool "semiGlobalMatching.useSeedsToCompDepthsToSweep" true
    seedsRangePercentile := mp._ini.getDouble "semiGlobalMatching.seedsRangePercentile" (1 / 1000)
    seedsRangeInflate := mp._ini.getDouble "semiGlobalMatching.seedsRangeInflate" (2 / 10)
    saveDepthsToSweepToTxtForVis :=
      mp._ini.getBool "semiGlobalMatching.saveDepthsToSweepToTxtForVis" false
    doSGMoptimizeVolume := mp._ini.getBool "semiGlobalMatching.doSGMoptimizeVolume" true
    doRefineRc := mp._ini.getBool "semiGlobalMatching.doRefineRc" true
    modalsMapDistLimit := mp._ini.getInt "semiGlobalMatching.modalsMapDistLimit" 2
    minNumOfConsistentCams := mp._ini.getInt "semiGlobalMatching.minNumOfConsistentCams" 2
    minObjectThickness := mp._ini.getInt "semiGlobalMatching.minObjectThickness" 8
    maxTcRcPixSizeInVoxRatio := mp._ini.getDouble "semiGlobalMatching.maxTcRcPixSizeInVoxRatio" 2
    nSGGCIters := mp._ini.getInt "semiGlobalMatching.nSGGCIters" 0
    SGMoutDirName := mp._ini.getString "semiGlobalMatching.outDirName" "SGM"
    SGMtmpDirName := mp._ini.getString "semiGlobalMatching.tmpDirName" "_tmp"
    useSilhouetteMaskCodedByColor := mp._ini.getBool "global.useSilhouetteMaskCodedByColor" false
    silhouetteMaskColor := {
      r := mp._ini.getInt "global.silhouetteMaskColorR" 0
      g := mp._ini.getInt "global.silhouetteMaskColorG" 0
      b := mp._ini.getInt "global.silhouetteMaskColorB" 0 } }

/-- Modelled from the spec: `mvsUtils::num2str` (declared in `common.hpp`, not
among the sources) writes its integer argument in decimal. -/
def num2str (n : Int) : String := toString n

/-- The call `std::to_string(viewId)` for `IndexT`, an unsigned integer. -/
def to_string (viewId : Nat) : String := toString viewId

def getREFINE_photo_depthMapFileName {F M : Type} (mp : MultiViewParams F M)
    (viewId : Nat) (scale step : Int) : String :=
  mp.getDepthMapFolder ++ to_string viewId ++ "_depthMap_scale" ++ num2str scale ++ "_step"
    ++ num2str step ++ "_refinePhoto.exr"

def getREFINE_photo_simMapFileName {F M : Type} (mp : MultiViewParams F M)
    (viewId : Nat) (scale step : Int) : String :=
  mp.getDepthMapFolder ++ to_string viewId ++ "_simMap_scale" ++ num2str scale ++ "_step"
    ++ num2str step ++ "_refinePhoto.exr"

def getREFINE_opt_depthMapFileName {F M : Type} (mp : MultiViewParams F M)
    (viewId : Nat) (scale step : Int) : String :=
  mp.getDepthMapFolder ++ to_string viewId ++ "_depthMap_scale" ++ num2str scale ++ "_step"
    ++ num2str step ++ "_refineOpt.exr"

def getREFINE_opt_simMapFileName {F M : Type} (mp : MultiViewParams F M)
    (viewId : Nat) (scale step : Int) : String :=
  mp.getDepthMapFolder ++ to_string viewId ++ "_simMap_scale" ++ num2str scale ++ "_step"
    ++ num2str step ++ "_refineOpt.exr"

def getSGM_depthMapFileName {F M : Type} (mp : MultiViewParams F M)
    (viewId : Nat) (scale step : Int) : String :=
  mp.getDepthMapFolder ++ to_string viewId ++ "_depthMap_scale" ++ num2str scale ++ "_step"
    ++ num2str step ++ "_SGM.bin"

def getSGM_simMapFileName {F M : Type} (mp : MultiViewParams F M)
    (viewId : Nat) (scale step : Int) : String :=
  mp.getDepthMapFolder ++ to_string viewId ++ "_simMap_scale" ++ num2str scale ++ "_step"
    ++ num2str step ++ "_SGM.bin"

/-- The naming rule of the spec: `{viewId}_{kind}_scale{scale}_step{step}_{stage}.{ext}`,
the three numbers in decimal, `kind` being `depthMap` or `simMap`. -/
def specFileName (viewId : Nat) (kind : String) (scale step : Int) (stage ext : String) :
    String :=
  toString viewId ++ "_" ++ kind ++ "_scale" ++ toString scale ++ "_step" ++ toString step
    ++ "_" ++ stage ++ "." ++ ext

/-! ## A sample instance of the geometry -/

/-- `Matrix3x3` of `mvsData`, with its entries `m11` to `m33`. -/
structure Matrix3x3 (F : Type) where
  m11 : F
  m12 : F
  m13 : F
  m21 : F
  m22 : F
  m23 : F
  m31 : F
  m32 : F
  m33 : F
deriving DecidableEq, Repr

/-- The scalar product of two points. -/
def dot (a b : Point3d ℚ) : ℚ := a.x * b.x + a.y * b.y + a.z * b.z

/-- A sample instance of `Geometry` over the rationals, used only to run the
function on concrete inputs in theorems that do not depend on the value of the
depth. It follows the usual formulas (a pixel is lifted to `(x, y, 1)`), but it
is not the arithmetic of the code: the root is `Rat.sqrt`, a rounded root that
is exact on squares only, and a division by zero yields `0`. -/
def rationalGeometry : Geometry ℚ (Matrix3x3 ℚ) where
  ofInt n := (n : ℚ)
  mulPoint3d m p := ⟨m.m11 * p.x + m.m12 * p.y + m.m13 * p.z,
                     m.m21 * p.x + m.m22 * p.y + m.m23 * p.z,
                     m.m31 * p.x + m.m32 * p.y + m.m33 * p.z⟩
  mulPoint2d m p := ⟨m.m11 * p.x + m.m12 * p.y + m.m13,
                     m.m21 * p.x + m.m22 * p.y + m.m23,
                     m.m31 * p.x + m.m32 * p.y + m.m33⟩
  normalize p := ⟨p.x / Rat.sqrt (dot p p), p.y / Rat.sqrt (dot p p), p.z / Rat.sqrt (dot p p)⟩
  add a b := ⟨a.x + b.x, a.y + b.y, a.z + b.z⟩
  sub a b := ⟨a.x - b.x, a.y - b.y, a.z - b.z⟩
  scale a k := ⟨a.x * k, a.y * k, a.z * k⟩
  size p := Rat.sqrt (dot p p)
  linePlaneIntersect linePoint lineVect planePoint planeNormal :=
    ⟨linePoint.x + lineVect.x *
        ((dot planePoint planeNormal - dot planeNormal linePoint) / dot planeNormal lineVect),
     linePoint.y + lineVect.y *
        ((dot planePoint planeNormal - dot planeNormal linePoint) / dot planeNormal lineVect),
     linePoint.z + lineVect.z *
        ((dot planePoint planeNormal - dot planeNormal linePoint) / dot planeNormal lineVect)⟩

/-- The identity matrix. -/
def identity3 : Matrix3x3 ℚ := ⟨1, 0, 0, 0, 1, 0, 0, 0, 1⟩

/-- A configuration tree with no key. -/
def emptyTree : PropertyTree := ⟨fun _ => none, fun _ => none, fun _ => none, fun _ => none⟩

/-- A set of cameras at the origin looking along the z axis, with identity
calibration and an empty configuration. -/
def originCamera : MultiViewParams ℚ (Matrix3x3 ℚ) where
  _ini := emptyTree
  iRArr := fun _ => identity3
  CArr := fun _ => ⟨0, 0, 0⟩
  iCamArr := fun _ => identity3
  getDepthMapFolder := "depthMap/"

/-- A configuration whose only keys are the two penalties, `P2` below `P1`. -/
def invertedPenalties : PropertyTree where
  bools := fun _ => none
  ints := fun key =>
    if key = "semiGlobalMatching.P1" then some 200
    else if key = "semiGlobalMatching.P2" then some 100
    else none
  doubles := fun _ => none
  strings := fun _ => none

/-- The cameras of `originCamera` with the configuration `invertedPenalties`. -/
def invertedCamera : MultiViewParams ℚ (Matrix3x3 ℚ) :=
  { originCamera with _ini := invertedPenalties }

end AliceVision

namespace OpenMVG

/-! ## `GeometricFilter_FMatrix` (`F_ACRobust.hpp`) -/

/-- The enumeration `robust::EROBUST_ESTIMATOR`. Its declaration is not among
the sources: the two enumerators the filter names are kept, every other value
is `other`. -/
inductive EROBUST_ESTIMATOR where
  | ROBUST_ESTIMATOR_ACRANSAC
  | ROBUST_ESTIMATOR_LORANSAC
  | other (code : Nat)
deriving DecidableEq, Repr

/-- The two exceptions thrown by `geometricEstimation_Mat`, with their message. -/
inductive Exception where
  | invalid_argument (what : String)
  | runtime_error (what : String)
deriving DecidableEq, Repr

/-- The data members of `GeometricFilter_FMatrix`; `D` stands for `double`
and `Mat3` for the 3 by 3 matrix type. -/
structure GeometricFilter_FMatrix (D Mat3 : Type) where
  m_dPrecision : D
  m_stIteration : Nat
  m_F : Mat3
  m_dPrecision_robust : D
  m_estimator : EROBUST_ESTIMATOR
deriving DecidableEq, Repr

/-- What `geometricEstimation_Mat` uses and the sources do not define: the
arithmetic of `double`, the kernel constants and the two robust estimators.
`Mat` is the type of a point set. -/
structure RobustEnv (D Mat Mat3 : Type) where
  /-- The value `std::numeric_limits<double>::infinity()`. -/
  infinity : D
  /-- The function `Square`. -/
  Square : D → D
  /-- The product of two `double`. -/
  mul : D → D → D
  /-- The matrix `Mat3::Identity()`. -/
  Identity : Mat3
  /-- The constant `KernelType::MINIMUM_SAMPLES` of the `ACKernelAdaptor` kernel. -/
  MINIMUM_SAMPLES_AC : Nat
  /-- The constant `KernelType::MINIMUM_SAMPLES` of the `KernelAdaptorLoRansac` kernel. -/
  MINIMUM_SAMPLES_LO : Nat
  /-- The preprocessor constant `OPENMVG_MINIMUM_SAMPLES_COEF`. -/
  OPENMVG_MINIMUM_SAMPLES_COEF : ℚ
  /-- The call `ACRANSAC(kernel, vec_inliers, m_stIteration, &m_F, upper_bound_precision)`
  on the kernel built from the two point sets and image sizes: the inliers
  written to `vec_inliers`, the matrix left in `m_F` and the returned pair. -/
  ACRANSAC : Mat → Nat × Nat → Mat → Nat × Nat → List Nat → Nat → Mat3 → D →
    List Nat × Mat3 × (D × D)
  /-- The entry `kernel.normalizer2()(0, 0)` of the kernel built from the two
  point sets and image sizes. -/
  normalizer2_00 : Mat → Nat × Nat → Mat → Nat × Nat → D
  /-- The call `LO_RANSAC(kernel, scorer, &vec_inliers)`, the scorer being built
  from the normalised threshold: the returned matrix and the inliers written
  to `vec_inliers`. -/
  LO_RANSAC : Mat → Nat × Nat → Mat → Nat × Nat → D → List Nat → Mat3 × List Nat

/-- The constructor of `GeometricFilter_FMatrix`; an argument left out at the
call (`none`) takes its default value. -/
def GeometricFilter_FMatrix.new {D Mat Mat3 : Type} (env : RobustEnv D Mat Mat3)
    (dPrecision : Option D) (iteration : Option Nat) (estimator : Option EROBUST_ESTIMATOR) :
    GeometricFilter_FMatrix D Mat3 :=
  { m_dPrecision := dPrecision.getD env.infinity
    m_stIteration := iteration.getD 1024
    m_F := env.Identity
    m_dPrecision_robust := env.infinity
    m_estimator := estimator.getD .ROBUST_ESTIMATOR_ACRANSAC }

/-- The state in which a call of `geometricEstimation_Mat` ends: the value
returned or the exception thrown, the filter object and the caller's
`vec_inliers`. -/
structure Outcome (D Mat3 : Type) where
  result : Except Exception Bool
  self : GeometricFilter_FMatrix D Mat3
  vec_inliers : List Nat

/-- The test `vec_inliers.size() > KernelType::MINIMUM_SAMPLES * OPENMVG_MINIMUM_SAMPLES_COEF`. -/
def enoughSupport (size minimumSamples : Nat) (coef : ℚ) : Bool :=
  decide ((size : ℚ) > (minimumSamples : ℚ) * coef)

/-- The method `GeometricFilter_FMatrix::geometricEstimation_Mat`. The comparison
`m_dPrecision == infinity()` holds exactly when the value is the positive
infinity, so it is modelled by equality with `env.infinity`. -/
def geometricEstimation_Mat {D Mat Mat3 : Type} [DecidableEq D] (env : RobustEnv D Mat Mat3)
    (self : GeometricFilter_FMatrix D Mat3) (xI xJ : Mat) (imageSizeI imageSizeJ : Nat × Nat)
    (_vec_inliers : List Nat) : Outcome D Mat3 :=
  -- vec_inliers.clear()
  let vec_inliers : List Nat := []
  match self.m_estimator with
  | .ROBUST_ESTIMATOR_ACRANSAC =>
    let upper_bound_precision := env.Square self.m_dPrecision
    let r := env.ACRANSAC xI imageSizeI xJ imageSizeJ vec_inliers self.m_stIteration self.m_F
      upper_bound_precision
    let vec_inliers1 := r.1
    let self1 := { self with m_F := r.2.1 }
    let ACRansacOut := r.2.2
    let valid := enoughSupport vec_inliers1.length env.MINIMUM_SAMPLES_AC
      env.OPENMVG_MINIMUM_SAMPLES_COEF
    let self2 := if valid then { self1 with m_dPrecision_robust := ACRansacOut.1 } else self1
    ⟨.ok valid, self2, vec_inliers1⟩
  | .ROBUST_ESTIMATOR_LORANSAC =>
    if self.m_dPrecision = env.infinity then
      ⟨.error (.invalid_argument
        "[GeometricFilter_FMatrix_AC::geometricEstimation] the threshold of the LORANSAC is set to infinity!"),
        self, vec_inliers⟩
    else
      let normalizedThreshold :=
        env.Square (env.mul self.m_dPrecision (env.normalizer2_00 xI imageSizeI xJ imageSizeJ))
      let r := env.LO_RANSAC xI imageSizeI xJ imageSizeJ normalizedThreshold vec_inliers
      let self1 := { self with m_F := r.1 }
      let vec_inliers1 := r.2
      let valid := enoughSupport vec_inliers1.length env.MINIMUM_SAMPLES_LO
        env.OPENMVG_MINIMUM_SAMPLES_COEF
      let self2 := if valid then { self1 with m_dPrecision_robust := self1.m_dPrecision } else self1
      ⟨.ok valid, self2, vec_inliers1⟩
  | .other _ =>
    ⟨.error (.runtime_error
      "[GeometricFilter_FMatrix_AC::geometricEstimation] only ACRansac and LORansac are supported!"),
      self, vec_inliers⟩


/-- An environment over `Option ℚ` (`none` is the infinity) with the seven
point kernel (`MINIMUM_SAMPLES = 7`), the coefficient `coef`, and estimators
that return `n` inliers and leave the matrix as it is. -/
def sampleEnv (n : Nat) (coef : ℚ) : RobustEnv (Option ℚ) Unit Nat where
  infinity := none
  Square := fun d => d.map (fun q => q * q)
  mul := fun a b => a.bind (fun p => b.map (fun q => p * q))
  Identity := 1
  MINIMUM_SAMPLES_AC := 7
  MINIMUM_SAMPLES_LO := 7
  OPENMVG_MINIMUM_SAMPLES_COEF := coef
  ACRANSAC := fun _ _ _ _ _ _ F d => (List.range n, F, (d, some 0))
  normalizer2_00 := fun _ _ _ _ => some 1
  LO_RANSAC := fun _ _ _ _ _ _ => (1, List.range n)

end OpenMVG

/-! # Theorems -/

namespace AliceVision

/-! ## Vectors and loops -/

theorem StaticVector.read_natCast {T : Type} (v : StaticVector T) (k : Nat) :
    StaticVector.read v (k : Int) = v[k]? := by
  simp [StaticVector.read]

theorem StaticVector.read_isSome {T : Type} (v : StaticVector T) (i : Int)
    (h0 : 0 ≤ i) (h1 : i < StaticVector.size v) : ∃ a, StaticVector.read v i = some a := by
  have hlt : i.toNat < v.length := by
    unfold StaticVector.size at h1
    omega
  refine ⟨v[i.toNat], ?_⟩
  simp [StaticVector.read, h0, List.getElem?_eq_getElem hlt]

theorem StaticVector.read_eq_none {T : Type} (v : StaticVector T) (i : Int)
    (h : StaticVector.read v i = none) : ¬ (0 ≤ i ∧ i < StaticVector.size v) := by
  rintro ⟨h0, h1⟩
  obtain ⟨a, ha⟩ := StaticVector.read_isSome v i h0 h1
  rw [h] at ha
  cases ha

/-- A loop that returns carries an invariant kept by the iterations that return. -/
theorem forLoop_ok_inv {σ ε : Type} (body : Int → σ → Except ε σ) (Inv : Nat → σ → Prop)
    (n : Nat) (s0 : σ) (h0 : Inv 0 s0)
    (hstep : ∀ k s s1, k < n → Inv k s → body (k : Int) s = .ok s1 → Inv (k + 1) s1)
    (s2 : σ)
    (h : (List.range n).foldlM (fun st (i : Nat) => body (i : Int) st) s0 = .ok s2) :
    Inv n s2 := by
  induction n generalizing s2 with
  | zero =>
    have : s0 = s2 := by cases h; rfl
    exact this ▸ h0
  | succ m ih =>
    rw [List.range_succ, List.foldlM_append] at h
    cases hfold : (List.range m).foldlM (fun st (i : Nat) => body (i : Int) st) s0 with
    | error e =>
      rw [hfold] at h
      cases h
    | ok s1 =>
      rw [hfold] at h
      have hm : (List.foldlM (fun st (i : Nat) => body (i : Int) st) s1 [m]) = Except.ok s2 := h
      simp only [List.foldlM_cons, List.foldlM_nil] at hm
      have hi1 : Inv m s1 :=
        ih (fun k s s3 hk hinv hb => hstep k s s3 (Nat.lt_succ_of_lt hk) hinv hb) s1 hfold
      cases hb : body (m : Int) s1 with
      | error e => rw [hb] at hm; cases hm
      | ok s3 =>
        rw [hb] at hm
        have : s3 = s2 := by cases hm; rfl
        exact this ▸ hstep m s1 s3 (Nat.lt_succ_self m) hi1 hb

/-- A loop that stops with a fault stops in one of its iterations, entered in a
state that satisfies every invariant kept by the iterations that return. -/
theorem forLoop_error {σ ε : Type} (n : Int) (body : Int → σ → Except ε σ) (Inv : σ → Prop)
    (s : σ) (e : ε) (h0 : Inv s)
    (hstep : ∀ (k : Nat) (st st1 : σ), Inv st → body (k : Int) st = .ok st1 → Inv st1)
    (h : forLoop n body s = .error e) :
    ∃ (k : Nat) (st : σ), (k : Int) < n ∧ Inv st ∧ body (k : Int) st = .error e := by
  unfold forLoop at h
  have key : ∀ m : Nat, (List.range m).foldlM (fun st (i : Nat) => body (i : Int) st) s = .error e →
      ∃ (k : Nat) (st : σ), k < m ∧ Inv st ∧ body (k : Int) st = .error e := by
    intro m
    induction m with
    | zero => intro h1; cases h1
    | succ m ih =>
      intro hm
      rw [List.range_succ, List.foldlM_append] at hm
      cases hfold : (List.range m).foldlM (fun st (i : Nat) => body (i : Int) st) s with
      | error e1 =>
        rw [hfold] at hm
        have he : e1 = e := by cases hm; rfl
        subst he
        obtain ⟨k, st, hk, hst, hb⟩ := ih hfold
        exact ⟨k, st, Nat.lt_succ_of_lt hk, hst, hb⟩
      | ok s1 =>
        rw [hfold] at hm
        have hs1 : Inv s1 :=
          forLoop_ok_inv body (fun _ st => Inv st) m s h0
            (fun k st st1 _ hst hb => hstep k st st1 hst hb) s1 hfold
        refine ⟨m, s1, Nat.lt_succ_self m, hs1, ?_⟩
        have hm1 : (List.foldlM (fun st (i : Nat) => body (i : Int) st) s1 [m]) = Except.error e := hm
        simp only [List.foldlM_cons, List.foldlM_nil] at hm1
        cases hb : body (m : Int) s1 with
        | error e1 => rw [hb] at hm1; cases hm1; rfl
        | ok s2 => rw [hb] at hm1; cases hm1
  obtain ⟨k, st, hk, hst, hb⟩ := key n.toNat h
  exact ⟨k, st, Int.lt_toNat.1 hk, hst, hb⟩

/-- A loop that returns keeps every invariant kept by the iterations that return. -/
theorem forLoop_ok {σ ε : Type} (n : Int) (body : Int → σ → Except ε σ) (Inv : σ → Prop)
    (s s1 : σ) (h0 : Inv s)
    (hstep : ∀ (k : Nat) (st st1 : σ), Inv st → body (k : Int) st = .ok st1 → Inv st1)
    (h : forLoop n body s = .ok s1) : Inv s1 :=
  forLoop_ok_inv body (fun _ st => Inv st) n.toNat s h0
    (fun k st st1 _ hst hb => hstep k st st1 hst hb) s1 h

theorem forLoop_nonpos {σ ε : Type} (n : Int) (hn : n ≤ 0) (body : Int → σ → Except ε σ)
    (s : σ) : forLoop n body s = .ok s := by
  unfold forLoop
  rw [Int.toNat_eq_zero.2 hn]
  rfl

theorem forLoop_skip {σ ε : Type} (n : Int) (body : Int → σ → Except ε σ)
    (hbody : ∀ i s, body i s = .ok s) (s : σ) : forLoop n body s = .ok s := by
  cases hrun : forLoop n body s with
  | error e =>
    obtain ⟨k, st, _, _, hb⟩ := forLoop_error n body (fun _ => True) s e trivial
      (fun _ _ _ _ _ => trivial) hrun
    rw [hbody] at hb
    cases hb
  | ok s1 =>
    have : s1 = s := forLoop_ok n body (fun st => st = s) s s1 rfl
      (fun k st st1 hst hb => by rw [hbody] at hb; cases hb; exact hst) hrun
    rw [this]

theorem grid_index_inj {W x y x1 y1 : Nat} (hx : x < W) (hx1 : x1 < W)
    (h : y * W + x = y1 * W + x1) : y = y1 ∧ x = x1 := by
  have hW : 0 < W := by omega
  have e1 : (y * W + x) / W = y := by
    rw [Nat.add_comm, Nat.add_mul_div_right _ _ hW, Nat.div_eq_of_lt hx, Nat.zero_add]
  have e2 : (y1 * W + x1) / W = y1 := by
    rw [Nat.add_comm, Nat.add_mul_div_right _ _ hW, Nat.div_eq_of_lt hx1, Nat.zero_add]
  have hy : y = y1 := by rw [← e1, ← e2, h]
  subst hy
  exact ⟨rfl, by omega⟩

theorem grid_index_lt {W H x y : Nat} (hx : x < W) (hy : y < H) : y * W + x < H * W := by
  have h1 : (y + 1) * W ≤ H * W := Nat.mul_le_mul_right W hy
  rw [Nat.add_mul, Nat.one_mul] at h1
  omega

/-! ## One iteration of `getDepthSimMapFromBestIdVal` -/

/-- An iteration that returns has read its best-index entry, and either wrote
the cell (index inside the range) or did nothing (border index). -/
theorem cellBody_ok {F M : Type} (g : Geometry F M) (mp : MultiViewParams F M)
    (w : Int) (best : StaticVector (IdValue F)) (scale step rc zborder : Int)
    (planes : StaticVector F) (y x : Int) (dsm s1 : StaticVector (DepthSim F))
    (h : cellBody g mp w best scale step rc zborder planes y x dsm = .ok s1) :
    ∃ bv, StaticVector.read best (y * w + x) = some bv ∧
      (((bv.id ≥ zborder ∧ bv.id < StaticVector.size planes - zborder) ∧
          ∃ d, StaticVector.read planes bv.id = some d ∧
            (0 ≤ y * w + x ∧ (y * w + x).toNat < dsm.length) ∧
            s1 = dsm.set (y * w + x).toNat
              ⟨planeDepthAlongRay g mp rc
          ⟨int32 (int32 (x * step) * scale), int32 (int32 (y * step) * scale)⟩ d, bv.value⟩) ∨
        (¬ (bv.id ≥ zborder ∧ bv.id < StaticVector.size planes - zborder) ∧ s1 = dsm)) := by
  unfold cellBody at h
  cases hb : StaticVector.read best (y * w + x) with
  | none =>
    simp only [hb] at h
    cases h
  | some bv =>
    simp only [hb] at h
    refine ⟨bv, rfl, ?_⟩
    by_cases hg : bv.id ≥ zborder ∧ bv.id < StaticVector.size planes - zborder
    · rw [if_pos hg] at h
      left
      refine ⟨hg, ?_⟩
      cases hd : StaticVector.read planes bv.id with
      | none =>
        simp only [hd] at h
        cases h
      | some d =>
        simp only [hd, StaticVector.write] at h
        by_cases hi : 0 ≤ y * w + x ∧ (y * w + x).toNat < dsm.length
        · rw [if_pos hi] at h
          exact ⟨d, rfl, hi, by cases h; rfl⟩
        · rw [if_neg hi] at h
          cases h
    · rw [if_neg hg] at h
      right
      exact ⟨hg, by cases h; rfl⟩

/-- An iteration that stops with a fault: which access was out of range. -/
theorem cellBody_error {F M : Type} (g : Geometry F M) (mp : MultiViewParams F M)
    (w : Int) (best : StaticVector (IdValue F)) (scale step rc zborder : Int)
    (planes : StaticVector F) (y x : Int) (dsm : StaticVector (DepthSim F)) (e : Fault)
    (h : cellBody g mp w best scale step rc zborder planes y x dsm = .error e) :
    (e = .volumeBestIdVal (y * w + x) ∧ StaticVector.read best (y * w + x) = none) ∨
    (∃ bv, StaticVector.read best (y * w + x) = some bv ∧
      (bv.id ≥ zborder ∧ bv.id < StaticVector.size planes - zborder) ∧
      e = .planesDepths bv.id ∧ StaticVector.read planes bv.id = none) ∨
    (e = .dsm (y * w + x) ∧ ¬ (0 ≤ y * w + x ∧ (y * w + x).toNat < dsm.length)) := by
  unfold cellBody at h
  cases hb : StaticVector.read best (y * w + x) with
  | none =>
    simp only [hb] at h
    left
    exact ⟨by cases h; rfl, rfl⟩
  | some bv =>
    simp only [hb] at h
    by_cases hg : bv.id ≥ zborder ∧ bv.id < StaticVector.size planes - zborder
    · rw [if_pos hg] at h
      cases hd : StaticVector.read planes bv.id with
      | none =>
        simp only [hd] at h
        right; left
        exact ⟨bv, rfl, hg, by cases h; rfl, hd⟩
      | some d =>
        simp only [hd, StaticVector.write] at h
        right; right
        by_cases hi : 0 ≤ y * w + x ∧ (y * w + x).toNat < dsm.length
        · rw [if_pos hi] at h
          cases h
        · rw [if_neg hi] at h
          exact ⟨by cases h; rfl, hi⟩
    · rw [if_neg hg] at h
      cases h

/-- An iteration that returns keeps the length of the output vector. -/
theorem cellBody_length {F M : Type} (g : Geometry F M) (mp : MultiViewParams F M)
    (w : Int) (best : StaticVector (IdValue F)) (scale step rc zborder : Int)
    (planes : StaticVector F) (y x : Int) (dsm s1 : StaticVector (DepthSim F))
    (h : cellBody g mp w best scale step rc zborder planes y x dsm = .ok s1) :
    s1.length = dsm.length := by
  obtain ⟨bv, _, ⟨_, d, _, _, hs⟩ | ⟨_, hs⟩⟩ :=
    cellBody_ok g mp w best scale step rc zborder planes y x dsm s1 h
  · rw [hs, List.length_set]
  · rw [hs]

/-! ## The loops of `getDepthSimMapFromBestIdVal` -/

theorem cell_step {F M : Type} (g : Geometry F M) (mp : MultiViewParams F M)
    (W : Nat) (best : StaticVector (IdValue F)) (scale step rc zborder : Int)
    (planes : StaticVector F) (fresh : StaticVector (DepthSim F))
    (y x : Nat) (hx : x < W) (s s1 : StaticVector (DepthSim F))
    (hinv : GridInv g mp W best scale step rc zborder planes fresh (y * W + x) s)
    (hrun : cellBody g mp (W : Int) best scale step rc zborder planes (y : Int) (x : Int) s
      = .ok s1) :
    GridInv g mp W best scale step rc zborder planes fresh (y * W + x + 1) s1 := by
  obtain ⟨hlen, hdone, hrest⟩ := hinv
  have hidx : (y : Int) * (W : Int) + (x : Int) = ((y * W + x : Nat) : Int) := by push_cast; ring
  obtain ⟨bv, hbv, hcase⟩ :=
    cellBody_ok g mp W best scale step rc zborder planes y x s s1 hrun
  rw [hidx, StaticVector.read_natCast] at hbv
  rcases hcase with ⟨hg, d, hd, hi, hs1⟩ | ⟨hg, hs1⟩
  · -- a hypothesis index inside the range: the cell is written
    rw [hidx, Int.toNat_natCast] at hi hs1
    subst hs1
    refine ⟨by simp [hlen], ?_, ?_⟩
    · intro y1 x1 hx1 hlt
      by_cases he : y1 * W + x1 = y * W + x
      · obtain ⟨rfl, rfl⟩ := grid_index_inj hx1 hx he
        refine ⟨bv, hbv, fun _ => ⟨d, hd, ?_⟩, fun hng => absurd hg hng⟩
        rw [List.getElem?_set]
        simp [hi.2]
      · have hlt1 : y1 * W + x1 < y * W + x := by omega
        rw [List.getElem?_set, if_neg (fun h => he h.symm)]
        exact hdone y1 x1 hx1 hlt1
    · intro j hj
      rw [List.getElem?_set, if_neg (by omega)]
      exact hrest j (by omega)
  · -- a border index: nothing is written
    subst hs1
    refine ⟨hlen, ?_, fun j hj => hrest j (by omega)⟩
    intro y1 x1 hx1 hlt
    by_cases he : y1 * W + x1 = y * W + x
    · obtain ⟨rfl, rfl⟩ := grid_index_inj hx1 hx he
      exact ⟨bv, hbv, fun hyes => absurd hyes hg, fun _ => hrest _ (Nat.le_refl _)⟩
    · exact hdone y1 x1 hx1 (by omega)

theorem row_loop {F M : Type} (g : Geometry F M) (mp : MultiViewParams F M)
    (W : Nat) (best : StaticVector (IdValue F)) (scale step rc zborder : Int)
    (planes : StaticVector F) (fresh : StaticVector (DepthSim F))
    (y : Nat) (s s1 : StaticVector (DepthSim F))
    (hinv : GridInv g mp W best scale step rc zborder planes fresh (y * W) s)
    (hrun : forLoop (W : Int) (fun x dsm1 =>
        cellBody g mp (W : Int) best scale step rc zborder planes (y : Int) x dsm1) s = .ok s1) :
    GridInv g mp W best scale step rc zborder planes fresh ((y + 1) * W) s1 := by
  unfold forLoop at hrun
  rw [Int.toNat_natCast] at hrun
  have key := forLoop_ok_inv
    (fun x dsm1 => cellBody g mp (W : Int) best scale step rc zborder planes (y : Int) x dsm1)
    (fun x st => GridInv g mp W best scale step rc zborder planes fresh (y * W + x) st)
    W s hinv
    (fun k st st1 hk hst hb =>
      cell_step g mp W best scale step rc zborder planes fresh y k hk st st1 hst hb)
    s1 hrun
  rw [Nat.add_mul, Nat.one_mul]
  exact key

theorem grid_loop {F M : Type} (g : Geometry F M) (mp : MultiViewParams F M)
    (W H : Nat) (best : StaticVector (IdValue F)) (scale step rc zborder : Int)
    (planes : StaticVector F) (fresh s1 : StaticVector (DepthSim F))
    (hrun : forLoop (H : Int) (fun y dsm =>
        forLoop (W : Int) (fun x dsm1 =>
          cellBody g mp (W : Int) best scale step rc zborder planes y x dsm1) dsm) fresh
        = .ok s1) :
    GridInv g mp W best scale step rc zborder planes fresh (H * W) s1 := by
  have h0 : GridInv g mp W best scale step rc zborder planes fresh (0 * W) fresh := by
    refine ⟨rfl, ?_, fun j _ => rfl⟩
    intro y x _ hlt
    omega
  unfold forLoop at hrun
  rw [Int.toNat_natCast] at hrun
  exact forLoop_ok_inv
    (fun y dsm => (List.range (W : Int).toNat).foldlM
      (fun st (i : Nat) =>
        cellBody g mp (W : Int) best scale step rc zborder planes y (i : Int) st) dsm)
    (fun y st => GridInv g mp W best scale step rc zborder planes fresh (y * W) st)
    H fresh h0
    (fun k st st1 _ hst hb =>
      row_loop g mp W best scale step rc zborder planes fresh k st st1 hst hb)
    s1 hrun

/-- Partial correctness of `getDepthSimMapFromBestIdVal`: whenever it returns,
every cell of the grid satisfies `CellSpec` and the cells from `w * h` on are as
in the fresh map. -/
theorem getDepthSimMapFromBestIdVal_spec {F M : Type} (g : Geometry F M)
    (mp : MultiViewParams F M) (fresh : DepthSimMap F) (w h : Int)
    (best : StaticVector (IdValue F)) (scale step rc zborder : Int) (planes : StaticVector F)
    (out : DepthSimMap F)
    (hrun : getDepthSimMapFromBestIdVal g mp fresh w h best scale step rc zborder planes
      = .ok out) :
    out.w = fresh.w ∧ out.h = fresh.h ∧ out.dsm.length = fresh.dsm.length ∧
    (∀ x y : Int, 0 ≤ x → x < w → 0 ≤ y → y < h →
      CellSpec g mp scale step rc zborder planes x y
        (StaticVector.read best (y * w + x)) (StaticVector.read fresh.dsm (y * w + x))
        (StaticVector.read out.dsm (y * w + x))) ∧
    (∀ j : Int, w * h ≤ j →
      StaticVector.read out.dsm j = StaticVector.read fresh.dsm j) := by
  unfold getDepthSimMapFromBestIdVal at hrun
  dsimp only at hrun
  by_cases hh : h ≤ 0
  · rw [forLoop_nonpos h hh] at hrun
    cases hrun
    exact ⟨rfl, rfl, rfl, fun x y _ _ h0 h1 => by omega, fun _ _ => rfl⟩
  by_cases hw : w ≤ 0
  · rw [forLoop_skip h _ (fun i s => forLoop_nonpos w hw _ s)] at hrun
    cases hrun
    exact ⟨rfl, rfl, rfl, fun x y h0 h1 _ _ => by omega, fun _ _ => rfl⟩
  obtain ⟨W, rfl⟩ := Int.eq_ofNat_of_zero_le (le_of_lt (not_le.1 hw))
  obtain ⟨H, rfl⟩ := Int.eq_ofNat_of_zero_le (le_of_lt (not_le.1 hh))
  split at hrun
  · cases hrun
  · rename_i s1 hs1
    cases hrun
    obtain ⟨hlen, hcells, hrest⟩ :=
      grid_loop g mp W H best scale step rc zborder planes fresh.dsm s1 hs1
    refine ⟨rfl, rfl, hlen, ?_, ?_⟩
    · intro x y hx0 hxw hy0 hyh
      obtain ⟨x, rfl⟩ := Int.eq_ofNat_of_zero_le hx0
      obtain ⟨y, rfl⟩ := Int.eq_ofNat_of_zero_le hy0
      have hxW : x < W := by exact_mod_cast hxw
      have hyH : y < H := by exact_mod_cast hyh
      have hidx : (y : Int) * (W : Int) + (x : Int) = ((y * W + x : Nat) : Int) := by
        push_cast; ring
      rw [hidx, StaticVector.read_natCast, StaticVector.read_natCast, StaticVector.read_natCast]
      exact hcells y x hxW (grid_index_lt hxW hyH)
    · intro j hj
      have hj0 : 0 ≤ j := le_trans (mul_nonneg (Int.natCast_nonneg _) (Int.natCast_nonneg _)) hj
      obtain ⟨j, rfl⟩ := Int.eq_ofNat_of_zero_le hj0
      rw [StaticVector.read_natCast, StaticVector.read_natCast]
      apply hrest
      have : ((W * H : Nat) : Int) ≤ (j : Int) := by push_cast; exact hj
      have := Int.ofNat_le.1 this
      rw [Nat.mul_comm]; exact this

/-- With a nonnegative `zborder` and a best-index map of at least `w * h`
entries, the only access that can be out of range is a write to the output, and
it is a write at an index of the grid. -/
theorem getDepthSimMapFromBestIdVal_fault {F M : Type} (g : Geometry F M)
    (mp : MultiViewParams F M) (fresh : DepthSimMap F) (w h : Int)
    (best : StaticVector (IdValue F)) (scale step rc zborder : Int) (planes : StaticVector F)
    (hz : 0 ≤ zborder) (hbest : w * h ≤ StaticVector.size best) (e : Fault)
    (he : getDepthSimMapFromBestIdVal g mp fresh w h best scale step rc zborder planes
      = .error e) :
    ∃ i, e = .dsm i ∧ 0 ≤ i ∧ i < w * h ∧ StaticVector.size fresh.dsm ≤ i := by
  unfold getDepthSimMapFromBestIdVal at he
  dsimp only at he
  split at he
  · rename_i e1 hloop
    have : e1 = e := by cases he; rfl
    subst this
    obtain ⟨y, s1, hy, hlen1, hrow⟩ := forLoop_error h _
      (fun st => st.length = fresh.dsm.length) fresh.dsm e1 rfl
      (fun k st st1 hst hb =>
        forLoop_ok w _ (fun st2 => st2.length = fresh.dsm.length) st st1 hst
          (fun k2 st2 st3 hst2 hb2 =>
            (cellBody_length g mp w best scale step rc zborder planes _ _ st2 st3 hb2).trans
              hst2) hb)
      hloop
    obtain ⟨x, s2, hx, hlen2, hcell⟩ := forLoop_error w _
      (fun st => st.length = fresh.dsm.length) s1 e1 hlen1
      (fun k2 st2 st3 hst2 hb2 =>
        (cellBody_length g mp w best scale step rc zborder planes _ _ st2 st3 hb2).trans hst2)
      hrow
    have hx0 : (0 : Int) ≤ (x : Int) := Int.natCast_nonneg _
    have hy0 : (0 : Int) ≤ (y : Int) := Int.natCast_nonneg _
    have hidx0 : 0 ≤ (y : Int) * w + (x : Int) :=
      add_nonneg (mul_nonneg hy0 (by omega)) hx0
    have hidx1 : (y : Int) * w + (x : Int) < w * h := by
      have h1 : ((y : Int) + 1) * w ≤ h * w :=
        mul_le_mul_of_nonneg_right (by omega) (by omega)
      have h2 : ((y : Int) + 1) * w = (y : Int) * w + w := by ring
      have h3 : h * w = w * h := mul_comm _ _
      omega
    rcases cellBody_error g mp w best scale step rc zborder planes y x s2 e1 hcell with
      ⟨_, hnone⟩ | ⟨bv, _, hg, _, hnone⟩ | ⟨hdsm, hout⟩
    · exact absurd ⟨hidx0, lt_of_lt_of_le hidx1 hbest⟩ (StaticVector.read_eq_none _ _ hnone)
    · exact absurd ⟨by omega, by omega⟩ (StaticVector.read_eq_none _ _ hnone)
    · refine ⟨_, hdsm, hidx0, hidx1, ?_⟩
      unfold StaticVector.size
      rw [← hlen2]
      omega
  · cases he

/-- Total correctness: with a nonnegative `zborder` and a best-index map and a
fresh output map of at least `w * h` cells, `getDepthSimMapFromBestIdVal`
returns. -/
theorem getDepthSimMapFromBestIdVal_returns {F M : Type} (g : Geometry F M)
    (mp : MultiViewParams F M) (fresh : DepthSimMap F) (w h : Int)
    (best : StaticVector (IdValue F)) (scale step rc zborder : Int) (planes : StaticVector F)
    (hz : 0 ≤ zborder) (hbest : w * h ≤ StaticVector.size best)
    (hdsm : w * h ≤ StaticVector.size fresh.dsm) :
    ∃ out, getDepthSimMapFromBestIdVal g mp fresh w h best scale step rc zborder planes
      = .ok out := by
  cases hrun : getDepthSimMapFromBestIdVal g mp fresh w h best scale step rc zborder planes with
  | ok out => exact ⟨out, rfl⟩
  | error e =>
    obtain ⟨i, _, _, h1, h2⟩ := getDepthSimMapFromBestIdVal_fault g mp fresh w h best scale
      step rc zborder planes hz hbest e hrun
    omega

/-! ## Claims on `getDepthSimMapFromBestIdVal` -/

/-- C3: whenever the function returns, for every cell `(x, y)` of the grid
whose hypothesis index lies in `[zborder, |planesDepths| - zborder)` the
similarity stored at output cell `y * w + x` is the cost value of the best-index
map at the same cell. The function does return when `zborder >= 0` and the
best-index map and the fresh map have at least `w * h` cells. -/
theorem sim_is_best_value {F M : Type} (g : Geometry F M)
    (mp : MultiViewParams F M) (fresh : DepthSimMap F) (w h : Int)
    (volumeBestIdVal : StaticVector (IdValue F)) (scale step rc zborder : Int)
    (planesDepths : StaticVector F) :
    (∀ out, getDepthSimMapFromBestIdVal g mp fresh w h volumeBestIdVal scale step rc zborder
        planesDepths = .ok out →
      ∀ x y : Int, 0 ≤ x → x < w → 0 ≤ y → y < h →
        ∃ best, StaticVector.read volumeBestIdVal (y * w + x) = some best ∧
          (zborder ≤ best.id → best.id < StaticVector.size planesDepths - zborder →
            ∃ cell, StaticVector.read out.dsm (y * w + x) = some cell ∧
              cell.sim = best.value)) ∧
    (0 ≤ zborder → w * h ≤ StaticVector.size volumeBestIdVal →
      w * h ≤ StaticVector.size fresh.dsm →
      ∃ out, getDepthSimMapFromBestIdVal g mp fresh w h volumeBestIdVal scale step rc zborder
        planesDepths = .ok out) := by
  refine ⟨?_, getDepthSimMapFromBestIdVal_returns g mp fresh w h volumeBestIdVal scale step rc
    zborder planesDepths⟩
  intro out hout x y hx0 hxw hy0 hyh
  obtain ⟨_, _, _, hcells, _⟩ := getDepthSimMapFromBestIdVal_spec g mp fresh w h
    volumeBestIdVal scale step rc zborder planesDepths out hout
  obtain ⟨bv, hbv, hin, _⟩ := hcells x y hx0 hxw hy0 hyh
  refine ⟨bv, hbv, ?_⟩
  intro h1 h2
  obtain ⟨d, _, hc⟩ := hin ⟨h1, h2⟩
  exact ⟨_, hc, rfl⟩

/-- The statement of `sim_is_best_value` on a row of two cells with valid
indices: the call returns. -/
theorem sim_is_best_value_witness :
    ∃ out, getDepthSimMapFromBestIdVal rationalGeometry originCamera
        ⟨2, 1, [⟨-1, 1⟩, ⟨-1, 1⟩]⟩ 2 1 [⟨0, 5⟩, ⟨1, 7⟩] 1 1 0 0 [2, 3] = .ok out ∧
      ∀ x y : Int, 0 ≤ x → x < 2 → 0 ≤ y → y < 1 →
        ∃ best, StaticVector.read ([⟨0, 5⟩, ⟨1, 7⟩] : StaticVector (IdValue ℚ)) (y * 2 + x)
            = some best ∧
          ((0 : Int) ≤ best.id → best.id < StaticVector.size ([2, 3] : StaticVector ℚ) - 0 →
            ∃ cell, StaticVector.read out.dsm (y * 2 + x) = some cell ∧
              cell.sim = best.value) := by
  obtain ⟨out, hout⟩ := (sim_is_best_value rationalGeometry originCamera
    ⟨2, 1, [⟨-1, 1⟩, ⟨-1, 1⟩]⟩ 2 1 [⟨0, 5⟩, ⟨1, 7⟩] 1 1 0 0 [2, 3]).2
    (by decide) (by decide) (by decide)
  exact ⟨out, hout, (sim_is_best_value rationalGeometry originCamera
    ⟨2, 1, [⟨-1, 1⟩, ⟨-1, 1⟩]⟩ 2 1 [⟨0, 5⟩, ⟨1, 7⟩] 1 1 0 0 [2, 3]).1 out hout⟩

/-- C9: whenever the function returns, for every cell `(x, y)` of the grid
whose hypothesis index is outside `[zborder, |planesDepths| - zborder)` nothing
was written: output cell `y * w + x` holds the depth and the similarity that the
freshly constructed map held there. When `zborder >= 0` and the best-index map
and the fresh map have at least `w * h` cells the function returns, and that
cell exists. -/
theorem border_cell_untouched {F M : Type} (g : Geometry F M)
    (mp : MultiViewParams F M) (fresh : DepthSimMap F) (w h : Int)
    (volumeBestIdVal : StaticVector (IdValue F)) (scale step rc zborder : Int)
    (planesDepths : StaticVector F) :
    (∀ out, getDepthSimMapFromBestIdVal g mp fresh w h volumeBestIdVal scale step rc zborder
        planesDepths = .ok out →
      ∀ x y : Int, 0 ≤ x → x < w → 0 ≤ y → y < h →
        ∃ best, StaticVector.read volumeBestIdVal (y * w + x) = some best ∧
          (¬ (zborder ≤ best.id ∧ best.id < StaticVector.size planesDepths - zborder) →
            StaticVector.read out.dsm (y * w + x) =
              StaticVector.read fresh.dsm (y * w + x))) ∧
    (0 ≤ zborder → w * h ≤ StaticVector.size volumeBestIdVal →
      w * h ≤ StaticVector.size fresh.dsm →
      (∃ out, getDepthSimMapFromBestIdVal g mp fresh w h volumeBestIdVal scale step rc zborder
        planesDepths = .ok out) ∧
      ∀ x y : Int, 0 ≤ x → x < w → 0 ≤ y → y < h →
        ∃ cell, StaticVector.read fresh.dsm (y * w + x) = some cell) := by
  refine ⟨?_, ?_⟩
  · intro out hout x y hx0 hxw hy0 hyh
    obtain ⟨_, _, _, hcells, _⟩ := getDepthSimMapFromBestIdVal_spec g mp fresh w h
      volumeBestIdVal scale step rc zborder planesDepths out hout
    obtain ⟨bv, hbv, _, hborder⟩ := hcells x y hx0 hxw hy0 hyh
    exact ⟨bv, hbv, fun hng => hborder hng⟩
  · intro hz hbest hdsm
    refine ⟨getDepthSimMapFromBestIdVal_returns g mp fresh w h volumeBestIdVal scale step rc
      zborder planesDepths hz hbest hdsm, ?_⟩
    intro x y hx0 hxw hy0 hyh
    apply StaticVector.read_isSome
    · exact add_nonneg (mul_nonneg hy0 (by omega)) hx0
    · have h1 : (y + 1) * w ≤ h * w := mul_le_mul_of_nonneg_right (by omega) (by omega)
      have h2 : (y + 1) * w = y * w + w := by ring
      have h3 : h * w = w * h := mul_comm _ _
      omega

/-- The statement of `border_cell_untouched` on a row of two cells, the first
with a border index and the second with a valid index: the call returns. -/
theorem border_cell_untouched_witness :
    ∃ out, getDepthSimMapFromBestIdVal rationalGeometry originCamera
        ⟨2, 1, [⟨-1, 1⟩, ⟨-1, 1⟩]⟩ 2 1 [⟨0, 5⟩, ⟨1, 7⟩] 1 1 0 1 [2, 3, 4] = .ok out ∧
      ∀ x y : Int, 0 ≤ x → x < 2 → 0 ≤ y → y < 1 →
        ∃ best, StaticVector.read ([⟨0, 5⟩, ⟨1, 7⟩] : StaticVector (IdValue ℚ)) (y * 2 + x)
            = some best ∧
          (¬ ((1 : Int) ≤ best.id ∧
              best.id < StaticVector.size ([2, 3, 4] : StaticVector ℚ) - 1) →
            StaticVector.read out.dsm (y * 2 + x) =
              StaticVector.read
                (⟨2, 1, [⟨-1, 1⟩, ⟨-1, 1⟩]⟩ : DepthSimMap ℚ).dsm (y * 2 + x)) := by
  obtain ⟨out, hout⟩ := ((border_cell_untouched rationalGeometry originCamera
    ⟨2, 1, [⟨-1, 1⟩, ⟨-1, 1⟩]⟩ 2 1 [⟨0, 5⟩, ⟨1, 7⟩] 1 1 0 1 [2, 3, 4]).2
    (by decide) (by decide) (by decide)).1
  exact ⟨out, hout, (border_cell_untouched rationalGeometry originCamera
    ⟨2, 1, [⟨-1, 1⟩, ⟨-1, 1⟩]⟩ 2 1 [⟨0, 5⟩, ⟨1, 7⟩] 1 1 0 1 [2, 3, 4]).1 out hout⟩

/-- C10: with `zborder >= 0` and a best-index map of at least `w * h` entries,
whatever the hypothesis sequence (empty, or no longer than `2 * zborder`), no
read `planesDepths[id]` and no read of the best-index map is out of range: the
only access that can be is a write to the output map, at an index `i` of the
grid, `0 <= i < w * h`, that the output map does not have; with an output map of
at least `w * h` cells the function returns and leaves the cells from `w * h` on
as they were. For the negative `zborder = -1` the guard admits index `1` of a
sequence of length `1`. -/
theorem accesses_within_bounds {F M : Type} (g : Geometry F M)
    (mp : MultiViewParams F M) (fresh : DepthSimMap F) (w h : Int)
    (volumeBestIdVal : StaticVector (IdValue F)) (scale step rc zborder : Int)
    (planesDepths : StaticVector F)
    (hz : 0 ≤ zborder) (hbest : w * h ≤ StaticVector.size volumeBestIdVal) :
    (∀ e, getDepthSimMapFromBestIdVal g mp fresh w h volumeBestIdVal scale step rc zborder
        planesDepths = .error e →
      ∃ i, e = Fault.dsm i ∧ 0 ≤ i ∧ i < w * h ∧ StaticVector.size fresh.dsm ≤ i) ∧
    (w * h ≤ StaticVector.size fresh.dsm →
      ∃ out, getDepthSimMapFromBestIdVal g mp fresh w h volumeBestIdVal scale step rc zborder
          planesDepths = .ok out ∧
        ∀ j : Int, w * h ≤ j → StaticVector.read out.dsm j = StaticVector.read fresh.dsm j) ∧
    (getDepthSimMapFromBestIdVal rationalGeometry originCamera
        ⟨1, 1, [⟨-1, 1⟩]⟩ 1 1 [⟨1, 5⟩] 1 1 0 (-1) [2] = .error (Fault.planesDepths 1) ∧
      ((1 : Int) ≥ -1 ∧ (1 : Int) < StaticVector.size ([2] : StaticVector ℚ) - (-1)) ∧
      ¬ ((1 : Int) < StaticVector.size ([2] : StaticVector ℚ))) := by
  refine ⟨?_, ?_, rfl, by decide, by decide⟩
  · intro e he
    exact getDepthSimMapFromBestIdVal_fault g mp fresh w h volumeBestIdVal scale step rc zborder
      planesDepths hz hbest e he
  · intro hdsm
    obtain ⟨out, hout⟩ := getDepthSimMapFromBestIdVal_returns g mp fresh w h
      volumeBestIdVal scale step rc zborder planesDepths hz hbest hdsm
    obtain ⟨_, _, _, _, hrest⟩ := getDepthSimMapFromBestIdVal_spec g mp fresh w h
      volumeBestIdVal scale step rc zborder planesDepths out hout
    exact ⟨out, hout, hrest⟩

/-- The statement of `accesses_within_bounds` on a row of two cells whose index
`1` is admitted by the guard (`zborder = 1`, three hypotheses), so that each
iteration reads `planesDepths[1]` and writes its cell: with an output map of
one cell the second write is the fault, at index `1` of the grid; with an
output map of three cells the call returns and the third cell is untouched. -/
theorem accesses_within_bounds_witness :
    (0 : Int) ≤ 1 ∧
    (2 : Int) * 1 ≤ StaticVector.size ([⟨1, 5⟩, ⟨1, 7⟩] : StaticVector (IdValue ℚ)) ∧
    getDepthSimMapFromBestIdVal rationalGeometry originCamera ⟨2, 1, [⟨-1, 1⟩]⟩ 2 1
        [⟨1, 5⟩, ⟨1, 7⟩] 1 1 0 1 [2, 3, 4] = .error (Fault.dsm 1) ∧
    (∀ e, getDepthSimMapFromBestIdVal rationalGeometry originCamera ⟨2, 1, [⟨-1, 1⟩]⟩ 2 1
        [⟨1, 5⟩, ⟨1, 7⟩] 1 1 0 1 [2, 3, 4] = .error e →
      ∃ i, e = Fault.dsm i ∧ 0 ≤ i ∧ i < 2 * 1 ∧
        StaticVector.size (⟨2, 1, [⟨-1, 1⟩]⟩ : DepthSimMap ℚ).dsm ≤ i) ∧
    (2 : Int) * 1 ≤
      StaticVector.size (⟨2, 1, [⟨-1, 1⟩, ⟨-1, 1⟩, ⟨-1, 1⟩]⟩ : DepthSimMap ℚ).dsm ∧
    (∃ out, getDepthSimMapFromBestIdVal rationalGeometry originCamera
          ⟨2, 1, [⟨-1, 1⟩, ⟨-1, 1⟩, ⟨-1, 1⟩]⟩ 2 1 [⟨1, 5⟩, ⟨1, 7⟩] 1 1 0 1 [2, 3, 4] = .ok out ∧
        ∀ j : Int, 2 * 1 ≤ j → StaticVector.read out.dsm j =
          StaticVector.read (⟨2, 1, [⟨-1, 1⟩, ⟨-1, 1⟩, ⟨-1, 1⟩]⟩ : DepthSimMap ℚ).dsm j) :=
  ⟨by decide, by decide, rfl,
    (accesses_within_bounds rationalGeometry originCamera ⟨2, 1, [⟨-1, 1⟩]⟩ 2 1
      [⟨1, 5⟩, ⟨1, 7⟩] 1 1 0 1 [2, 3, 4] (by decide) (by decide)).1,
    by decide,
    (accesses_within_bounds rationalGeometry originCamera ⟨2, 1, [⟨-1, 1⟩, ⟨-1, 1⟩, ⟨-1, 1⟩]⟩ 2 1
      [⟨1, 5⟩, ⟨1, 7⟩] 1 1 0 1 [2, 3, 4] (by decide) (by decide)).2.1 (by decide)⟩

/-! ## Claims on the constructor and the file names -/

/-- C4, as the code has it: for every configuration, an inverted one included,
the constructor returns a parameter object; its `P1` and `P2` are the configured
integers (defaults 10 and 125) reduced to `unsigned char`, and their order is
not checked. -/
theorem constructor_accepts_every_configuration {F M : Type} (mp : MultiViewParams F M) :
    ∃ params, SemiGlobalMatchingParams.new mp = .ok params ∧
      params.P1 = (mp._ini.getInt "semiGlobalMatching.P1" 10) % 256 ∧
      params.P2 = (mp._ini.getInt "semiGlobalMatching.P2" 125) % 256 :=
  ⟨_, rfl, rfl, rfl⟩

/-- C4 fails as stated: the configuration with `P1 = 200` and `P2 = 100` is not
rejected, the constructor returns an object with `P2 < P1`. -/
theorem constructor_rejects_inverted_counterexample :
    invertedCamera._ini.getInt "semiGlobalMatching.P2" 125 <
      invertedCamera._ini.getInt "semiGlobalMatching.P1" 10 ∧
    ∃ params, SemiGlobalMatchingParams.new invertedCamera = .ok params ∧
      params.P1 = 200 ∧ params.P2 = 100 ∧ params.P2 < params.P1 := by
  refine ⟨by decide, _, rfl, by decide, by decide, by decide⟩

/-- C5: the depth-map names of the SGM, photometric refinement and optimised
refinement stages are the depth-map folder followed by
`{viewId}_depthMap_scale{scale}_step{step}_{stage}.{ext}` with stage `SGM`,
`refinePhoto` and `refineOpt` (extension `bin` for SGM, `exr` for the other
two), and each similarity-map name is the same with `simMap` for `depthMap`;
for view 12, scale 2 and step 1 in the folder `depthMap/` the SGM depth map is
`depthMap/12_depthMap_scale2_step1_SGM.bin`. -/
theorem file_names_follow_rule {F M : Type} (mp : MultiViewParams F M)
    (viewId : Nat) (scale step : Int) :
    getSGM_depthMapFileName mp viewId scale step =
      mp.getDepthMapFolder ++ specFileName viewId "depthMap" scale step "SGM" "bin" ∧
    getREFINE_photo_depthMapFileName mp viewId scale step =
      mp.getDepthMapFolder ++ specFileName viewId "depthMap" scale step "refinePhoto" "exr" ∧
    getREFINE_opt_depthMapFileName mp viewId scale step =
      mp.getDepthMapFolder ++ specFileName viewId "depthMap" scale step "refineOpt" "exr" ∧
    getSGM_simMapFileName mp viewId scale step =
      mp.getDepthMapFolder ++ specFileName viewId "simMap" scale step "SGM" "bin" ∧
    getREFINE_photo_simMapFileName mp viewId scale step =
      mp.getDepthMapFolder ++ specFileName viewId "simMap" scale step "refinePhoto" "exr" ∧
    getREFINE_opt_simMapFileName mp viewId scale step =
      mp.getDepthMapFolder ++ specFileName viewId "simMap" scale step "refineOpt" "exr" ∧
    getSGM_depthMapFileName originCamera 12 2 1 = "depthMap/12_depthMap_scale2_step1_SGM.bin" := by
  have d : "_depthMap_scale" = "_" ++ "depthMap" ++ "_scale" := by decide
  have s : "_simMap_scale" = "_" ++ "simMap" ++ "_scale" := by decide
  have e1 : "_SGM.bin" = "_" ++ "SGM" ++ "." ++ "bin" := by decide
  have e2 : "_refinePhoto.exr" = "_" ++ "refinePhoto" ++ "." ++ "exr" := by decide
  have e3 : "_refineOpt.exr" = "_" ++ "refineOpt" ++ "." ++ "exr" := by decide
  refine ⟨?_, ?_, ?_, ?_, ?_, ?_, by decide⟩
  · simp only [getSGM_depthMapFileName, specFileName, to_string, num2str, d, e1,
      String.append_assoc]
  · simp only [getREFINE_photo_depthMapFileName, specFileName, to_string, num2str, d, e2,
      String.append_assoc]
  · simp only [getREFINE_opt_depthMapFileName, specFileName, to_string, num2str, d, e3,
      String.append_assoc]
  · simp only [getSGM_simMapFileName, specFileName, to_string, num2str, s, e1,
      String.append_assoc]
  · simp only [getREFINE_photo_simMapFileName, specFileName, to_string, num2str, s, e2,
      String.append_assoc]
  · simp only [getREFINE_opt_simMapFileName, specFileName, to_string, num2str, s, e3,
      String.append_assoc]

end AliceVision

namespace OpenMVG

/-! ## Claims on `geometricEstimation_Mat` -/

/-- The outcome of the LORANSAC safeguard. -/
theorem geometricEstimation_Mat_loransac_infinity {D Mat Mat3 : Type} [DecidableEq D]
    (env : RobustEnv D Mat Mat3) (self : GeometricFilter_FMatrix D Mat3) (xI xJ : Mat)
    (imageSizeI imageSizeJ : Nat × Nat) (vec_inliers : List Nat)
    (hest : self.m_estimator = .ROBUST_ESTIMATOR_LORANSAC)
    (hp : self.m_dPrecision = env.infinity) :
    geometricEstimation_Mat env self xI xJ imageSizeI imageSizeJ vec_inliers =
      ⟨.error (.invalid_argument
        "[GeometricFilter_FMatrix_AC::geometricEstimation] the threshold of the LORANSAC is set to infinity!"),
        self, []⟩ := by
  unfold geometricEstimation_Mat
  rw [hest]
  dsimp only
  rw [if_pos hp]

/-- C6: when the configured estimator is neither ACRANSAC nor LORANSAC,
`geometricEstimation_Mat` throws a runtime error, leaves the inlier list empty
and the filter object (so `m_F` and `m_dPrecision_robust`) unchanged, and the
outcome does not depend on the estimators: none is run. -/
theorem unsupported_estimator_throws {D Mat Mat3 : Type} [DecidableEq D]
    (env : RobustEnv D Mat Mat3) (self : GeometricFilter_FMatrix D Mat3) (xI xJ : Mat)
    (imageSizeI imageSizeJ : Nat × Nat) (vec_inliers : List Nat)
    (hac : self.m_estimator ≠ .ROBUST_ESTIMATOR_ACRANSAC)
    (hlo : self.m_estimator ≠ .ROBUST_ESTIMATOR_LORANSAC) :
    (∃ what, (geometricEstimation_Mat env self xI xJ imageSizeI imageSizeJ vec_inliers).result
      = .error (.runtime_error what)) ∧
    (geometricEstimation_Mat env self xI xJ imageSizeI imageSizeJ vec_inliers).vec_inliers = [] ∧
    (geometricEstimation_Mat env self xI xJ imageSizeI imageSizeJ vec_inliers).self.m_F
      = self.m_F ∧
    (geometricEstimation_Mat env self xI xJ imageSizeI imageSizeJ
      vec_inliers).self.m_dPrecision_robust = self.m_dPrecision_robust ∧
    (geometricEstimation_Mat env self xI xJ imageSizeI imageSizeJ vec_inliers).self = self ∧
    ∀ env2 : RobustEnv D Mat Mat3,
      geometricEstimation_Mat env2 self xI xJ imageSizeI imageSizeJ vec_inliers =
        geometricEstimation_Mat env self xI xJ imageSizeI imageSizeJ vec_inliers := by
  unfold geometricEstimation_Mat
  cases hest : self.m_estimator with
  | ROBUST_ESTIMATOR_ACRANSAC => exact absurd hest hac
  | ROBUST_ESTIMATOR_LORANSAC => exact absurd hest hlo
  | other code => exact ⟨⟨_, rfl⟩, rfl, rfl, rfl, rfl, fun _ => rfl⟩

/-- The statement of `unsupported_estimator_throws` for an estimator that is neither of the two. -/
theorem unsupported_estimator_throws_witness :
    (GeometricFilter_FMatrix.new (sampleEnv 20 7) (some (some 4)) none
        (some (.other 2))).m_estimator ≠ .ROBUST_ESTIMATOR_ACRANSAC ∧
    (GeometricFilter_FMatrix.new (sampleEnv 20 7) (some (some 4)) none
        (some (.other 2))).m_estimator ≠ .ROBUST_ESTIMATOR_LORANSAC ∧
    (∃ what, (geometricEstimation_Mat (sampleEnv 20 7)
        (GeometricFilter_FMatrix.new (sampleEnv 20 7) (some (some 4)) none (some (.other 2)))
        () () (640, 480) (640, 480) [3, 1]).result = .error (.runtime_error what)) :=
  ⟨by decide, by decide,
    (unsupported_estimator_throws (sampleEnv 20 7)
      (GeometricFilter_FMatrix.new (sampleEnv 20 7) (some (some 4)) none (some (.other 2)))
      () () (640, 480) (640, 480) [3, 1] (by decide) (by decide)).1⟩

/-- C8: with the LORANSAC estimator, `geometricEstimation_Mat` throws an
invalid-argument error exactly when `m_dPrecision` is the infinity; it then
leaves the inlier list empty and the filter object (so `m_F` and
`m_dPrecision_robust`) unchanged whatever the estimators are, none being run.
The infinity is the precision the constructor takes by default. -/
theorem loransac_infinite_threshold_throws {D Mat Mat3 : Type} [DecidableEq D]
    (env : RobustEnv D Mat Mat3) (self : GeometricFilter_FMatrix D Mat3) (xI xJ : Mat)
    (imageSizeI imageSizeJ : Nat × Nat) (vec_inliers : List Nat)
    (hest : self.m_estimator = .ROBUST_ESTIMATOR_LORANSAC) :
    ((∃ what, (geometricEstimation_Mat env self xI xJ imageSizeI imageSizeJ vec_inliers).result
        = .error (.invalid_argument what)) ↔ self.m_dPrecision = env.infinity) ∧
    (self.m_dPrecision = env.infinity →
      (geometricEstimation_Mat env self xI xJ imageSizeI imageSizeJ vec_inliers).vec_inliers
        = [] ∧
      (geometricEstimation_Mat env self xI xJ imageSizeI imageSizeJ vec_inliers).self.m_F
        = self.m_F ∧
      (geometricEstimation_Mat env self xI xJ imageSizeI imageSizeJ
        vec_inliers).self.m_dPrecision_robust = self.m_dPrecision_robust ∧
      (geometricEstimation_Mat env self xI xJ imageSizeI imageSizeJ vec_inliers).self = self ∧
      ∀ env2 : RobustEnv D Mat Mat3, env2.infinity = env.infinity →
        geometricEstimation_Mat env2 self xI xJ imageSizeI imageSizeJ vec_inliers =
          geometricEstimation_Mat env self xI xJ imageSizeI imageSizeJ vec_inliers) ∧
    (∀ (iteration : Option Nat) (estimator : Option EROBUST_ESTIMATOR),
      (GeometricFilter_FMatrix.new env none iteration estimator).m_dPrecision = env.infinity) := by
  refine ⟨?_, ?_, fun _ _ => rfl⟩
  · unfold geometricEstimation_Mat
    rw [hest]
    by_cases hp : self.m_dPrecision = env.infinity
    · simp only [hp, if_true, iff_true]
      exact ⟨_, rfl⟩
    · simp only [hp, if_false, iff_false]
      rintro ⟨what, hwhat⟩
      cases hwhat
  · intro hp
    rw [geometricEstimation_Mat_loransac_infinity env self xI xJ imageSizeI imageSizeJ
      vec_inliers hest hp]
    refine ⟨rfl, rfl, rfl, rfl, ?_⟩
    intro env2 h2
    exact geometricEstimation_Mat_loransac_infinity env2 self xI xJ imageSizeI imageSizeJ
      vec_inliers hest (hp.trans h2.symm)

/-- The statement of `loransac_infinite_threshold_throws` for a filter built with the default precision. -/
theorem loransac_infinite_threshold_throws_witness :
    (GeometricFilter_FMatrix.new (sampleEnv 20 7) none none
        (some .ROBUST_ESTIMATOR_LORANSAC)).m_estimator = .ROBUST_ESTIMATOR_LORANSAC ∧
    ((∃ what, (geometricEstimation_Mat (sampleEnv 20 7)
        (GeometricFilter_FMatrix.new (sampleEnv 20 7) none none (some .ROBUST_ESTIMATOR_LORANSAC))
        () () (640, 480) (640, 480) [3, 1]).result = .error (.invalid_argument what)) ↔
      (GeometricFilter_FMatrix.new (sampleEnv 20 7) none none
        (some .ROBUST_ESTIMATOR_LORANSAC)).m_dPrecision = (sampleEnv 20 7).infinity) :=
  ⟨rfl,
    (loransac_infinite_threshold_throws (sampleEnv 20 7)
      (GeometricFilter_FMatrix.new (sampleEnv 20 7) none none (some .ROBUST_ESTIMATOR_LORANSAC))
      () () (640, 480) (640, 480) [3, 1] rfl).1⟩

end OpenMVG
